import Mathlib

/-!
Verification of the devobs CLI against its specification.

This file gives a shallow embedding of the two commands whose behaviour the
specification describes in detail: `check-file-pair` (src/check_file_pair.rs)
and `assert-diff` (src/commands/assert_diff.rs), together with the shared
file-listing subsystem (src/utils/fs.rs).

Modelling conventions:
- A filesystem path is its list of components; an absolute path starts with
  the empty component, so "/w/src" is ["", "w", "src"].
- The `glob` crate is an oracle `FsPath → List FsPath`: for a joined pattern it
  yields the matched paths in enumeration order, with unreadable entries
  already dropped (the source filters out `Err` entries with `filter_map`).
- The `regex` crate is an oracle `String → Option (List (Option String ×
  Option String))`: `none` when the whole regex does not match the filename
  (`Regex::captures` returning `None`), otherwise the capture groups of the
  regex in order, each as (group name if named, captured text if the group
  participated in the match).
- The filesystem is explicit state: the pairing command only needs existence
  of files and directories, the hashing command also needs file contents.
- Process outcomes are `ok` (exit code 0), `err msg` (an `anyhow` error
  propagated to `main`, exit code 1, message on stderr) and `panicked msg`
  (a Rust panic out of `unwrap`/`expect`).
-/

/-- A filesystem path as its list of components ("/w/src" is ["", "w", "src"]). -/
abbrev FsPath := List String

/-- Helper for `parsePath`: split a character list at slashes, accumulating the
current component in reverse. -/
def splitSlashAux : List Char → List Char → List String
  | [], acc => [String.mk acc.reverse]
  | c :: rest, acc =>
    if c = '/' then String.mk acc.reverse :: splitSlashAux rest []
    else splitSlashAux rest (c :: acc)

/-- Parse a path string into its components (model of `PathBuf::from`). -/
def parsePath (s : String) : FsPath := splitSlashAux s.toList []

/-- Join path components back into a string with slash separators (model of
`Path::to_str` on the platform-native representation). -/
def joinPath : FsPath → String
  | [] => ""
  | [c] => c
  | c :: rest => c ++ "/" ++ joinPath rest

/-- Model of Rust `std::path::absolute`: it fails only on the empty path and
otherwise resolves a relative path against the current directory, without
touching the filesystem (no existence requirement, no symlink resolution;
`.`/`..` components are kept as-is, which no claim exercises). -/
def absolutize (cwd : FsPath) (s : String) : Option FsPath :=
  if s = "" then none
  else
    let p := parsePath s
    if p.head? = some "" then some p else some (cwd ++ p)

/-- Model of `from.join(s)` in `expand_glob`: `Path::join` of the base
directory and the raw pattern string; an absolute pattern replaces the base. -/
def joinPattern (base : FsPath) (s : String) : FsPath :=
  let p := parsePath s
  if p.head? = some "" then p else base ++ p

/-- Embedding of `expand_glob` (src/utils/fs.rs lines 39-52, duplicated in
src/check_file_pair.rs): each pattern is joined onto the base directory and
handed to the glob oracle `g`; the per-pattern match lists are concatenated in
pattern order (`flat_map` + `filter_map(Result::ok)` + `collect`). -/
def expand_glob (g : FsPath → List FsPath) (base : FsPath) : List String → List FsPath
  | [] => []
  | s :: rest => g (joinPattern base s) ++ expand_glob g base rest

/-- Embedding of `list_files` (src/utils/fs.rs lines 25-36, duplicated in
src/check_file_pair.rs): include-pattern matches, retaining only paths that
are not equal to any exclude-pattern match
(`include.retain(|path| !exclude.iter().any(|ex| path == ex))`). -/
def list_files (g : FsPath → List FsPath) (base : FsPath) (inc exc : List String) : List FsPath :=
  (expand_glob g base inc).filter (fun p => decide (p ∉ expand_glob g base exc))

/-- Concrete glob oracle for the duplicate-expansion counterexample: the base
directory `d` contains the single file `d/a.txt`, which is matched both by the
pattern `*.txt` and by the pattern `a.*` (exactly what the real glob crate
would report for that directory). -/
def dupGlob : FsPath → List FsPath := fun pat =>
  if pat = ["d", "*.txt"] ∨ pat = ["d", "a.*"] then [["d", "a.txt"]] else []

/-- Outcome of a command run: `ok` is exit code 0, `err` is an `anyhow` error
propagated out of `main` (exit code 1, human-readable message on the error
stream), `panicked` is a Rust panic from `unwrap`/`expect`. -/
inductive CmdResult where
  | ok : CmdResult
  | err : String → CmdResult
  | panicked : String → CmdResult
deriving DecidableEq

/-- The global CLI options threaded into every command (src/main.rs). -/
structure GlobalOpts where
  dryRun : Bool

/-- Lookup in a variable mapping (model of `HashMap::get`): the mapping is a
key-value list whose keys are kept unique by `insertVar`. -/
def lookupVar (m : List (String × String)) (k : String) : Option String :=
  (m.find? (fun kv => kv.1 == k)).map (fun kv => kv.2)

/-- Model of `HashMap::insert`: the new binding replaces any binding of the
same key, so keys stay unique and the last write wins. -/
def insertVar (m : List (String × String)) (k v : String) : List (String × String) :=
  (k, v) :: m.filter (fun kv => !(kv.1 == k))

/-- The keys of a variable mapping are pairwise distinct (the `HashMap`
invariant the specification states for one mapping). -/
def keysNodup (m : List (String × String)) : Prop := (m.map Prod.fst).Nodup

/-- The opening brace character of a `strfmt` placeholder. -/
def lbrace : Char := Char.ofNat 123

/-- The closing brace character of a `strfmt` placeholder. -/
def rbrace : Char := Char.ofNat 125

/-- Rendering loop of the `strfmt` crate restricted to the feature set the
program uses: literal text, `\x7bname\x7d` placeholders resolved against the
variable mapping, and doubled braces as escapes.  The third argument is
`none` in literal mode and `some acc` while reading a placeholder name
(accumulated in reverse).  Failures (`none`) are an unknown variable or a
malformed template, which the source propagates with `?` as an error.  The
recursion is driven by a fuel counter so the definition stays structurally
recursive; every step consumes one character, so the fuel `strfmt` supplies
(one more than the template length) is never exhausted. -/
def renderLoop (vars : List (String × String)) :
    Nat → List Char → Option (List Char) → Option (List Char)
  | 0, _, _ => none
  | _ + 1, [], none => some []
  | _ + 1, [], some _ => none
  | fuel + 1, c :: rest, none =>
    if c = lbrace then
      match rest with
      | c2 :: rest2 =>
        if c2 = lbrace then (renderLoop vars fuel rest2 none).map (fun t => lbrace :: t)
        else renderLoop vars fuel (c2 :: rest2) (some [])
      | [] => none
    else if c = rbrace then
      match rest with
      | c2 :: rest2 =>
        if c2 = rbrace then (renderLoop vars fuel rest2 none).map (fun t => rbrace :: t)
        else none
      | [] => none
    else (renderLoop vars fuel rest none).map (fun t => c :: t)
  | fuel + 1, c :: rest, some acc =>
    if c = rbrace then
      match lookupVar vars (String.mk acc.reverse) with
      | none => none
      | some v => (renderLoop vars fuel rest none).map (fun t => v.toList ++ t)
    else renderLoop vars fuel rest (some (c :: acc))

/-- Model of `strfmt::strfmt(template, vars)`. -/
def strfmt (template : String) (vars : List (String × String)) : Option String :=
  (renderLoop vars (template.toList.length + 1) template.toList none).map (fun cs => String.mk cs)

/-- Helper for the Rust stem/extension split: split a character list at its
last dot, returning the parts before and after that dot. -/
def splitAtLastDot : List Char → Option (List Char × List Char)
  | [] => none
  | c :: rest =>
    match splitAtLastDot rest with
    | some (pre, post) => some (c :: pre, post)
    | none => if c = '.' then some ([], rest) else none

/-- Model of Rust `Path::file_stem` applied to a file name: the whole name
when there is no dot or when the only dot is the leading one, otherwise the
part before the last dot. -/
def fileStem (name : String) : Option String :=
  if name = "" then none
  else
    match splitAtLastDot name.toList with
    | none => some name
    | some (pre, _) => if pre = [] then some name else some (String.mk pre)

/-- Model of Rust `Path::extension` applied to a file name: the part after the
last dot, except when there is no dot or the name is a leading-dot name. -/
def fileExtension (name : String) : Option String :=
  if name = "" then none
  else
    match splitAtLastDot name.toList with
    | none => none
    | some (pre, post) => if pre = [] then none else some (String.mk post)

/-- The filesystem state seen by `check-file-pair`: which paths exist as
regular files and which as directories. -/
structure FS where
  files : List FsPath
  dirs : List FsPath
deriving DecidableEq

/-- Model of `Path::exists`: the path is a file or a directory. -/
def FS.existsPath (fs : FS) (p : FsPath) : Prop := p ∈ fs.files ∨ p ∈ fs.dirs

instance (fs : FS) (p : FsPath) : Decidable (fs.existsPath p) :=
  inferInstanceAs (Decidable (_ ∨ _))

/-- The proper ancestors of a path, shallowest first: the directories
`create_dir_all(path.parent())` guarantees to exist. -/
def ancDirs : FsPath → List FsPath
  | [] => []
  | [_] => []
  | c :: rest => [c] :: (ancDirs rest).map (fun q => c :: q)

/-- Embedding of `touch_file` (src/utils/fs.rs lines 8-22, duplicated in
src/check_file_pair.rs): if the path already exists, do nothing; otherwise
create every missing parent directory (`create_dir_all`) and then the empty
file (`File::create`).  The `parent().expect(...)` panic is unreachable for
the non-root paths the command produces and is not modelled; I/O failures are
outside the model. -/
def touch_file (fs : FS) (p : FsPath) : FS :=
  if fs.existsPath p then fs
  else { files := fs.files ++ [p], dirs := fs.dirs ++ ancDirs p }

namespace CheckFilePair

/-- CLI arguments of `check-file-pair` (src/check_file_pair.rs lines 13-64).
`fromDir`/`toDir` are the raw `--from`/`--to` strings, `includePats` and
`excludePats` the glob pattern lists (empty when the flags are not given),
`expect` the template (default `\x7bto\x7d/\x7brelative_from\x7d/\x7bfilename\x7d`), and
`filenameRegex` the compiled regex as a capture oracle (see the module
comment). -/
structure CommandArgs where
  fromDir : String
  toDir : String
  includePats : List String
  excludePats : List String
  expect : String
  filenameRegex : Option (String → Option (List (Option String × Option String)))
  createIfNotExists : Bool

/-- External collaborators of the command: the process working directory and
the glob crate. -/
structure Env where
  cwd : FsPath
  glob : FsPath → List FsPath

/-- The per-file built-in variables, inserted over the base mapping in source
order: `stem`, `extension`, `relative_from`, `filename`
(src/check_file_pair.rs lines 112-116). -/
def builtinVars (base : List (String × String)) (stem extension relative_from filename : String) :
    List (String × String) :=
  insertVar (insertVar (insertVar (insertVar base "stem" stem)
    "extension" extension) "relative_from" relative_from) "filename" filename

/-- Insertion of the regex capture groups over the built-ins
(src/check_file_pair.rs lines 119-125): groups are walked in regex order,
unnamed groups are dropped by `capture_names().flatten()`, groups that did not
participate in the match are dropped by `filter_map`, and each remaining named
capture is inserted into the mapping. -/
def insertCaptures (vars : List (String × String)) :
    List (Option String × Option String) → List (String × String)
  | [] => vars
  | (some n, some v) :: rest => insertCaptures (insertVar vars n v) rest
  | _ :: rest => insertCaptures vars rest

/-- The complete variable mapping for one candidate file: captures applied
after built-ins. -/
def buildVars (base : List (String × String)) (stem extension relative_from filename : String)
    (gs : List (Option String × Option String)) : List (String × String) :=
  insertCaptures (builtinVars base stem extension relative_from filename) gs

/-- The value the capture groups alone assign to a name: the last
participating named capture of that name, if any. -/
def lookupCaptures : List (Option String × Option String) → String → Option String
  | [], _ => none
  | (some m, some v) :: rest, n =>
    match lookupCaptures rest n with
    | some w => some w
    | none => if m = n then some v else none
  | _ :: rest, n => lookupCaptures rest n

/-- Embedding of lines 117-126: when a `filename_regex` is configured, the
code calls `regex.captures(filename).unwrap()`, so a filename the regex does
not match panics; otherwise the capture groups are returned for insertion. -/
def captureGroupsOf (rx : Option (String → Option (List (Option String × Option String))))
    (filename : String) : Except CmdResult (List (Option String × Option String)) :=
  match rx with
  | none => .ok []
  | some r =>
    match r filename with
    | none => .error (.panicked "called Option::unwrap() on a None value")
    | some gs => .ok gs

/-- Lines 105-110: an empty parent rendering is replaced by the literal ".". -/
def dotIfEmpty (s : String) : String := if s = "" then "." else s

/-- Embedding of lines 98-110: strip the `from` prefix from the candidate
path (`strip_prefix`, an error when `from` is not a prefix), take the parent
directory (an error for an empty relative path), and replace an empty
rendering by the literal ".". -/
def relativeFromOf (fromP path : FsPath) : Except CmdResult String :=
  if fromP.isPrefixOf path then
    match path.drop fromP.length with
    | [] => .error (.err "Failed to get parent directory")
    | x :: xs => .ok (dotIfEmpty (joinPath ((x :: xs).dropLast)))
  else .error (.err "prefix not found")

/-- Per-candidate resolution (the body of the `for` loop, lines 81-139, up to
the existence check): derive the built-in variables, apply the filename regex,
render the template and absolutize the result. -/
def computeExpected (env : Env) (args : CommandArgs) (base : List (String × String))
    (fromP path : FsPath) : Except CmdResult FsPath :=
  match path.getLast? with
  | none => .error (.panicked "Failed to get file name")
  | some filename =>
    match fileStem filename with
    | none => .error (.err "Failed to get file stem")
    | some stem =>
      match fileExtension filename with
      | none => .error (.err "Failed to get file extension")
      | some extension =>
        match relativeFromOf fromP path with
        | .error e => .error e
        | .ok relative_from =>
          match captureGroupsOf args.filenameRegex filename with
          | .error e => .error e
          | .ok gs =>
            match strfmt args.expect (buildVars base stem extension relative_from filename gs) with
            | none => .error (.err "failed to format the expected path")
            | some rendered =>
              match absolutize env.cwd rendered with
              | none => .error (.err "cannot make an empty path absolute")
              | some resultPath => .ok resultPath

/-- The scanning phase (lines 81-152): resolve every candidate in order and
collect the expected paths that do not exist, stopping at the first error. -/
def collectMissing (env : Env) (args : CommandArgs) (fs : FS)
    (base : List (String × String)) (fromP : FsPath) : List FsPath → Except CmdResult (List FsPath)
  | [] => .ok []
  | c :: rest =>
    match computeExpected env args base fromP c with
    | .error e => .error e
    | .ok rp =>
      match collectMissing env args fs base fromP rest with
      | .error e => .error e
      | .ok ms => .ok (if fs.existsPath rp then ms else rp :: ms)

/-- The base variables `cwd`, `from`, `to` (lines 74-79). -/
def baseVarsOf (env : Env) (fromP toP : FsPath) : List (String × String) :=
  insertVar (insertVar (insertVar [] "cwd" (joinPath env.cwd))
    "from" (joinPath fromP)) "to" (joinPath toP)

/-- The missing set of a run: `none` when `from` or `to` cannot be made
absolute, otherwise the outcome of the scanning phase over the candidate
list. -/
def missingSet (env : Env) (args : CommandArgs) (fs : FS) :
    Option (Except CmdResult (List FsPath)) :=
  match absolutize env.cwd args.fromDir, absolutize env.cwd args.toDir with
  | some fromP, some toP =>
    some (collectMissing env args fs (baseVarsOf env fromP toP) fromP
      (list_files env.glob fromP args.includePats args.excludePats))
  | _, _ => none

/-- Embedding of `command` (src/check_file_pair.rs lines 66-173): scan for
missing pairs; succeed when there are none; without `--create-if-not-exists`
fail reporting the missing count; with it, create every missing file unless
the run is a dry run, and fail reporting the created count. -/
def command (env : Env) (args : CommandArgs) (g : GlobalOpts) (fs : FS) : FS × CmdResult :=
  match missingSet env args fs with
  | none => (fs, .err "cannot make an empty path absolute")
  | some (.error e) => (fs, e)
  | some (.ok missing) =>
    if missing.isEmpty then (fs, .ok)
    else if args.createIfNotExists = false then
      (fs, .err ("There are " ++ toString missing.length
        ++ " missing files. Use `--create-if-not-exists` to create them."))
    else
      ((if g.dryRun then fs else missing.foldl touch_file fs),
        .err ("Created " ++ toString missing.length ++ " missing files."))

end CheckFilePair

/-- Example world shared by the `check-file-pair` claims: working directory
`/w`, a `from` directory `/w/src` containing exactly `main.py`, and an empty
`to` directory `/w/tests`.  The glob oracle reports what the glob crate would:
the pattern `/w/src/*.py` matches exactly `/w/src/main.py`. -/
def exEnv : CheckFilePair.Env :=
  { cwd := ["", "w"],
    glob := fun pat => if pat = ["", "w", "src", "*.py"] then [["", "w", "src", "main.py"]] else [] }

/-- The filesystem of the example world. -/
def exFS : FS :=
  { files := [["", "w", "src", "main.py"]],
    dirs := [["", "w"], ["", "w", "src"], ["", "w", "tests"]] }

/-- Arguments of the specification's example run, with an include pattern
matching the single source file: `--from /w/src --to /w/tests --include *.py
--expect \x7bto\x7d/test_\x7bfilename\x7d`. -/
def c1Args : CheckFilePair.CommandArgs :=
  { fromDir := "/w/src", toDir := "/w/tests", includePats := ["*.py"], excludePats := [],
    expect := "\x7bto\x7d/test_\x7bfilename\x7d", filenameRegex := none, createIfNotExists := false }

/-- The specification's example run exactly as stated, without `--include`:
the flag's clap default is the empty pattern list. -/
def c1DefaultArgs : CheckFilePair.CommandArgs := { c1Args with includePats := [] }

/-- The example run with scaffolding requested. -/
def c2Args : CheckFilePair.CommandArgs := { c1Args with createIfNotExists := true }

/-- Capture oracle for the regex `^test_(?P<filename>.*)$`: filenames starting
with `test_` match with the named group `filename` bound to the remainder;
other filenames do not match at all. -/
def c4Regex : String → Option (List (Option String × Option String)) := fun s =>
  if ("test_".toList).isPrefixOf s.toList then
    some [(some "filename", some (String.mk (s.toList.drop 5)))]
  else none

/-- The example run with that filename regex configured: the candidate
`main.py` does not match it. -/
def c4Args : CheckFilePair.CommandArgs := { c1Args with filenameRegex := some c4Regex }

/-- Environment for the nonexistent-`from` run: no directory `/w/missing_src`
exists, so every glob pattern under it matches nothing. -/
def c5Env : CheckFilePair.Env := { cwd := ["", "w"], glob := fun _ => [] }

/-- Arguments naming a nonexistent `from` root (and a nonexistent `to`). -/
def c5Args : CheckFilePair.CommandArgs :=
  { fromDir := "/w/missing_src", toDir := "/w/missing_tests", includePats := ["**/*.py"],
    excludePats := [], expect := "\x7bto\x7d/\x7brelative_from\x7d/\x7bfilename\x7d",
    filenameRegex := none, createIfNotExists := false }

/-- Filesystem for the nonexistent-`from` run: only `/w` exists. -/
def c5FS : FS := { files := [], dirs := [["", "w"]] }

/-- The same run with an empty `--from` string, the only input
`std::path::absolute` rejects. -/
def c5EmptyArgs : CheckFilePair.CommandArgs := { c5Args with fromDir := "" }

/-- Invariant of the scaffolding pass: every path that exists now but did not
exist in the initial state `fs0` has all its ancestor directories recorded in
the directory list. -/
def grown (fs0 fs : FS) : Prop :=
  ∀ q, fs.existsPath q → ¬ fs0.existsPath q → ∀ d ∈ ancDirs q, d ∈ fs.dirs

namespace AssertDiff

/-- The filesystem state seen by `assert-diff`: regular files with their text
contents, plus directories. -/
structure HFS where
  files : List (FsPath × String)
  dirs : List FsPath
deriving DecidableEq

/-- Model of reading a file (`std::fs::read_to_string`, `File::open`):
`none` when no regular file is at the path. -/
def HFS.readFile (fs : HFS) (p : FsPath) : Option String :=
  (fs.files.find? (fun e => e.1 == p)).map (fun e => e.2)

/-- Model of `Path::exists`: a file or a directory is at the path. -/
def HFS.existsPath (fs : HFS) (p : FsPath) : Prop :=
  (fs.readFile p).isSome = true ∨ p ∈ fs.dirs

instance (fs : HFS) (p : FsPath) : Decidable (fs.existsPath p) :=
  inferInstanceAs (Decidable (_ ∨ _))

/-- Model of `std::fs::write`: create or overwrite the file. -/
def HFS.writeFile (fs : HFS) (p : FsPath) (c : String) : HFS :=
  { fs with files := (p, c) :: fs.files.filter (fun e => !(e.1 == p)) }

/-- Model of `std::fs::remove_file`. -/
def HFS.removeFile (fs : HFS) (p : FsPath) : HFS :=
  { fs with files := fs.files.filter (fun e => !(e.1 == p)) }

/-- CLI arguments of `assert-diff` (src/commands/assert_diff.rs lines 15-46).
`includePats` defaults to `[\x22**/*\x22]` in clap; `hashFile` is `None` when
`--hash-file` was not given. -/
structure CommandArgs where
  target : String
  includePats : List String
  excludePats : List String
  hashFile : Option FsPath
  preserveHashFile : Bool

/-- External collaborators: working directory, the OS temp directory
(`std::env::temp_dir`), the glob crate, and the checksum.  The hasher maps the
contents of the listed files, in enumeration order, to the hex digest string
(`DefaultHasher` fed with each file's bytes in chunks). -/
structure Env where
  cwd : FsPath
  tempDir : FsPath
  glob : FsPath → List FsPath
  hasher : List String → String

/-- Embedding of `calculate_directory_hash` (src/commands/assert_diff.rs
lines 102-129, also src/utils/hash.rs): list the files under the target with
the include/exclude patterns and stream their contents through the hasher;
a file that cannot be opened is an error (`none`). -/
def calculate_directory_hash (env : Env) (fs : HFS) (path : FsPath)
    (inc exc : List String) : Option String :=
  ((list_files env.glob path inc exc).mapM (fun p => fs.readFile p)).map env.hasher

/-- Embedding of `command` (src/commands/assert_diff.rs lines 48-96): resolve
the target (which must exist), compute the directory hash, then: no hash file
yet — write it and succeed; hash file present — compare, failing on mismatch,
and on match delete the hash file unless `--preserve-hash-file` was given. -/
def command (env : Env) (args : CommandArgs) (fs : HFS) : HFS × CmdResult :=
  match absolutize env.cwd args.target with
  | none => (fs, .err "cannot make an empty path absolute")
  | some target =>
    if fs.existsPath target then
      match calculate_directory_hash env fs target args.includePats args.excludePats with
      | none => (fs, .err "failed to open a file while hashing")
      | some hash =>
        if fs.existsPath (args.hashFile.getD (env.tempDir ++ ["assert-diff.hash"])) then
          match fs.readFile (args.hashFile.getD (env.tempDir ++ ["assert-diff.hash"])) with
          | none => (fs, .err "failed to read the hash file")
          | some existing =>
            if hash = existing then
              if args.preserveHashFile then (fs, .ok)
              else (fs.removeFile (args.hashFile.getD (env.tempDir ++ ["assert-diff.hash"])), .ok)
            else
              (fs, .err ("Directory hash does not match the existing hash: "
                ++ hash ++ " != " ++ existing))
        else
          (fs.writeFile (args.hashFile.getD (env.tempDir ++ ["assert-diff.hash"])) hash, .ok)
    else (fs, .err ("Target path does not exist: " ++ joinPath target))

end AssertDiff

/-- Example world for `assert-diff`: an existing (empty) target directory
`/w/target`, the temp directory `/tmp`, no `--hash-file` flag, and a checksum
oracle that digests the empty file list to "h0". -/
def adEnv : AssertDiff.Env :=
  { cwd := ["", "w"], tempDir := ["", "tmp"], glob := fun _ => [],
    hasher := fun _ => "h0" }

/-- Arguments of the example `assert-diff` run (clap defaults: include
`**/*`, no hash file, no preserve flag). -/
def adArgs : AssertDiff.CommandArgs :=
  { target := "/w/target", includePats := ["**/*"], excludePats := [],
    hashFile := none, preserveHashFile := false }

/-- Filesystem for the first run: no hash file yet. -/
def adFS : AssertDiff.HFS := { files := [], dirs := [["", "w"], ["", "w", "target"]] }

/-- Filesystem for the mismatch run: the default hash file location holds a
stale digest. -/
def adFSWithHash : AssertDiff.HFS :=
  { files := [(["", "tmp", "assert-diff.hash"], "stale")],
    dirs := [["", "w"], ["", "w", "target"]] }

/-- Claim C6 counterexample: `expand_glob` does not deduplicate across
patterns — with the two include patterns `*.txt` and `a.*` over a directory
containing `a.txt`, the path `d/a.txt` occurs twice in the result, refuting
"no path occurs more than once in the result, even when several include
patterns match the same file". -/
theorem expand_glob_duplicate_cex :
    (expand_glob dupGlob ["d"] ["*.txt", "a.*"]).count ["d", "a.txt"] = 2 := by
  decide

/-- Claim C6 (amended): the file list produced by glob expansion is the
pattern-wise concatenation of the oracle's matches — a path occurs in the
result exactly once per include pattern whose expansion lists it, with no
cross-pattern deduplication. -/
theorem expand_glob_count_spec (g : FsPath → List FsPath) (base : FsPath)
    (pats : List String) (p : FsPath) :
    (expand_glob g base pats).count p
      = (pats.map (fun s => (g (joinPattern base s)).count p)).sum := by
  induction pats with
  | nil => rfl
  | cons s rest ih =>
    simp [expand_glob, List.count_append, ih]

/-- Claim C7: a path is in the result of `list_files` iff it is matched by
some include pattern and is not equal to any path matched by an exclude
pattern; in particular an exclude match always removes the path, regardless of
how specific the include pattern that produced it was. -/
theorem list_files_mem_iff (g : FsPath → List FsPath) (base : FsPath)
    (inc exc : List String) (p : FsPath) :
    p ∈ list_files g base inc exc
      ↔ p ∈ expand_glob g base inc ∧ p ∉ expand_glob g base exc := by
  simp [list_files, List.mem_filter]

theorem lookupVar_insertVar_self (m : List (String × String)) (k v : String) :
    lookupVar (insertVar m k v) k = some v := by
  simp [lookupVar, insertVar, List.find?]

theorem lookupVar_insertVar_other (m : List (String × String)) (k v k' : String)
    (h : k' ≠ k) : lookupVar (insertVar m k v) k' = lookupVar m k' := by
  have hk : ((k, v).1 == k') = false := by
    simp [BEq.beq]
    exact fun e => h e.symm
  simp only [lookupVar, insertVar, List.find?, hk]
  induction m with
  | nil => rfl
  | cons kv rest ih =>
    by_cases hkvk : kv.1 = k
    · have h1 : (kv.1 == k) = true := by simp [hkvk]
      have h2 : (kv.1 == k') = false := by
        simp [hkvk]
        exact fun e => h e.symm
      simp only [List.filter, h1, Bool.not_true, List.find?, h2]
      exact ih
    · have h1 : (kv.1 == k) = false := by simp [hkvk]
      simp only [List.filter, h1, Bool.not_false, List.find?]
      by_cases hkvk' : (kv.1 == k') = true
      · simp [hkvk']
      · simp only [Bool.not_eq_true] at hkvk'
        simp only [hkvk']
        exact ih

theorem keysNodup_insertVar (m : List (String × String)) (k v : String)
    (h : keysNodup m) : keysNodup (insertVar m k v) := by
  unfold keysNodup insertVar
  simp only [List.map_cons, List.nodup_cons]
  constructor
  · intro hmem
    simp only [List.mem_map] at hmem
    obtain ⟨kv, hkv, hfst⟩ := hmem
    rw [List.mem_filter] at hkv
    have := hkv.2
    rw [hfst] at this
    simp at this
  · exact List.Nodup.sublist ((List.filter_sublist m).map Prod.fst) h

/-- Newly created files and directories only grow the filesystem. -/
theorem existsPath_touch (fs : FS) (p q : FsPath) (h : fs.existsPath q) :
    (touch_file fs p).existsPath q := by
  unfold touch_file
  by_cases he : fs.existsPath p
  · rw [if_pos he]; exact h
  · rw [if_neg he]
    rcases h with h | h
    · exact Or.inl (List.mem_append_left _ h)
    · exact Or.inr (List.mem_append_left _ h)

/-- Touching a path makes it exist. -/
theorem existsPath_touch_self (fs : FS) (p : FsPath) : (touch_file fs p).existsPath p := by
  unfold touch_file
  by_cases he : fs.existsPath p
  · rw [if_pos he]; exact he
  · rw [if_neg he]
    exact Or.inl (List.mem_append_right _ (List.mem_singleton.mpr rfl))

/-- Existence is preserved across a whole scaffolding pass. -/
theorem existsPath_foldl_touch (L : List FsPath) (fs : FS) (q : FsPath)
    (h : fs.existsPath q) : (L.foldl touch_file fs).existsPath q := by
  induction L generalizing fs with
  | nil => exact h
  | cons p rest ih => exact ih (touch_file fs p) (existsPath_touch fs p q h)

/-- Every path in the scaffolding list exists after the pass. -/
theorem existsPath_foldl_touch_mem (L : List FsPath) (fs : FS) (p : FsPath)
    (h : p ∈ L) : (L.foldl touch_file fs).existsPath p := by
  induction L generalizing fs with
  | nil => cases h
  | cons c rest ih =>
    rcases List.mem_cons.mp h with rfl | hm
    · exact existsPath_foldl_touch rest (touch_file fs p) p (existsPath_touch_self fs p)
    · exact ih (touch_file fs c) hm

/-- Every ancestor directory recorded by `ancDirs` is a nonempty component
list. -/
theorem mem_ancDirs_ne_nil : ∀ (p q : FsPath), q ∈ ancDirs p → q ≠ []
  | [], q, h => by simp [ancDirs] at h
  | [x], q, h => by simp [ancDirs] at h
  | a :: b :: t, q, h => by
    simp only [ancDirs, List.mem_cons, List.mem_map] at h
    rcases h with rfl | ⟨q', _, rfl⟩ <;> simp

/-- The ancestors of an ancestor of `p` are ancestors of `p` (prefixes of a
prefix are prefixes). -/
theorem ancDirs_sub : ∀ (p q : FsPath), q ∈ ancDirs p → ∀ d ∈ ancDirs q, d ∈ ancDirs p
  | [], q, h => by simp [ancDirs] at h
  | [x], q, h => by simp [ancDirs] at h
  | a :: b :: t, q, h => by
    simp only [ancDirs, List.mem_cons, List.mem_map] at h
    rcases h with rfl | ⟨q', hq', rfl⟩
    · intro d hd; simp [ancDirs] at hd
    · intro d hd
      match q', hq', hd with
      | x :: xs, hq', hd =>
        simp only [ancDirs, List.mem_cons, List.mem_map] at hd
        rcases hd with rfl | ⟨d', hd', rfl⟩
        · exact List.mem_cons_self _ _
        · exact List.mem_cons_of_mem _
            (List.mem_map.mpr ⟨d', ancDirs_sub (b :: t) (x :: xs) hq' d' hd', rfl⟩)
      | [], hq', _ => exact (mem_ancDirs_ne_nil (b :: t) [] hq' rfl).elim

theorem grown_refl (fs0 : FS) : grown fs0 fs0 :=
  fun _ hq hq0 => absurd hq hq0

theorem grown_touch (fs0 fs : FS) (p : FsPath) (h : grown fs0 fs) :
    grown fs0 (touch_file fs p) := by
  intro q hq hq0 d hd
  unfold touch_file at hq ⊢
  by_cases he : fs.existsPath p
  · rw [if_pos he] at hq ⊢
    exact h q hq hq0 d hd
  · rw [if_neg he] at hq ⊢
    simp only [FS.existsPath, List.mem_append] at hq
    show d ∈ fs.dirs ++ ancDirs p
    rcases hq with (hq | hq) | (hq | hq)
    · exact List.mem_append_left _ (h q (Or.inl hq) hq0 d hd)
    · rw [List.mem_singleton] at hq
      subst hq
      exact List.mem_append_right _ hd
    · exact List.mem_append_left _ (h q (Or.inr hq) hq0 d hd)
    · exact List.mem_append_right _ (ancDirs_sub p q hq d hd)

theorem grown_foldl (fs0 : FS) (L : List FsPath) (fs : FS) (h : grown fs0 fs) :
    grown fs0 (L.foldl touch_file fs) := by
  induction L generalizing fs with
  | nil => exact h
  | cons c rest ih => exact ih (touch_file fs c) (grown_touch fs0 fs c h)

/-- After scaffolding a batch of initially-missing paths, every path of the
batch exists and all its ancestor directories have been created. -/
theorem foldl_touch_created (L : List FsPath) (fs : FS)
    (h0 : ∀ p ∈ L, ¬ fs.existsPath p) :
    ∀ p ∈ L, (L.foldl touch_file fs).existsPath p ∧
      ∀ d ∈ ancDirs p, d ∈ (L.foldl touch_file fs).dirs := by
  intro p hp
  refine ⟨existsPath_foldl_touch_mem L fs p hp, ?_⟩
  exact grown_foldl fs L fs (grown_refl fs) p
    (existsPath_foldl_touch_mem L fs p hp) (h0 p hp)

/-- The scanning phase only collects expected paths that do not exist. -/
theorem collectMissing_not_exists (env : CheckFilePair.Env) (args : CheckFilePair.CommandArgs)
    (fs : FS) (base : List (String × String)) (fromP : FsPath) :
    ∀ (cs m : List FsPath),
      CheckFilePair.collectMissing env args fs base fromP cs = .ok m →
      ∀ p ∈ m, ¬ fs.existsPath p := by
  intro cs
  induction cs with
  | nil =>
    intro m h
    simp only [CheckFilePair.collectMissing] at h
    cases h
    intro p hp
    cases hp
  | cons c rest ih =>
    intro m h
    simp only [CheckFilePair.collectMissing] at h
    cases hce : CheckFilePair.computeExpected env args base fromP c with
    | error e => rw [hce] at h; cases h
    | ok rp =>
      rw [hce] at h
      cases hcm : CheckFilePair.collectMissing env args fs base fromP rest with
      | error e => rw [hcm] at h; cases h
      | ok ms =>
        rw [hcm] at h
        cases h
        by_cases hex : fs.existsPath rp
        · rw [if_pos hex]
          exact ih ms hcm
        · rw [if_neg hex]
          intro p hp
          rcases List.mem_cons.mp hp with rfl | hp
          · exact hex
          · exact ih ms hcm p hp

/-- The missing set of a run contains only paths that do not exist. -/
theorem missingSet_not_exists (env : CheckFilePair.Env) (args : CheckFilePair.CommandArgs)
    (fs : FS) (m : List FsPath)
    (h : CheckFilePair.missingSet env args fs = some (.ok m)) :
    ∀ p ∈ m, ¬ fs.existsPath p := by
  unfold CheckFilePair.missingSet at h
  cases h1 : absolutize env.cwd args.fromDir with
  | none => rw [h1] at h; cases h
  | some fromP =>
    cases h2 : absolutize env.cwd args.toDir with
    | none => rw [h1, h2] at h; cases h
    | some toP =>
      rw [h1, h2] at h
      injection h with h
      exact collectMissing_not_exists env args fs _ fromP _ m h

/-- Claim C1 (amended): for every run whose missing set is non-empty while
`--create-if-not-exists` was not given, the command fails with an error
message reporting exactly the count of missing files; in particular, with
`from` containing exactly `src/main.py`, an include pattern matching it
(without `--include` the candidate list is empty and the run succeeds),
template `\x7bto\x7d/test_\x7bfilename\x7d` and an empty `to`, the missing set is exactly
the single path `to`/test_main.py and the message contains
"There are 1 missing files". -/
theorem checkFilePair_missing_pairs_failure :
    (∀ (env : CheckFilePair.Env) (args : CheckFilePair.CommandArgs) (g : GlobalOpts)
        (fs : FS) (m : List FsPath),
      CheckFilePair.missingSet env args fs = some (.ok m) → m ≠ [] →
      args.createIfNotExists = false →
      CheckFilePair.command env args g fs
        = (fs, .err ("There are " ++ toString m.length
            ++ " missing files. Use `--create-if-not-exists` to create them.")))
    ∧ CheckFilePair.missingSet exEnv c1Args exFS
        = some (.ok [["", "w", "tests", "test_main.py"]])
    ∧ CheckFilePair.command exEnv c1Args ⟨false⟩ exFS
        = (exFS, .err "There are 1 missing files. Use `--create-if-not-exists` to create them.")
    ∧ ("There are 1 missing files".toList).isPrefixOf
        ("There are 1 missing files. Use `--create-if-not-exists` to create them.".toList)
        = true := by
  refine ⟨?_, by rfl, by rfl, by rfl⟩
  intro env args g fs m h1 h2 h3
  have hne : m.isEmpty = false := by
    cases m with
    | nil => exact absurd rfl h2
    | cons a t => rfl
  simp only [CheckFilePair.command, h1, hne, Bool.false_eq_true, if_false, h3, if_true]

/-- Witness for claim C1: the general statement applied to the example run
(the hypotheses hold there by computation). -/
theorem checkFilePair_missing_pairs_failure_witness :
    CheckFilePair.command exEnv c1Args ⟨true⟩ exFS
      = (exFS, .err ("There are "
          ++ toString [(["", "w", "tests", "test_main.py"] : FsPath)].length
          ++ " missing files. Use `--create-if-not-exists` to create them.")) :=
  checkFilePair_missing_pairs_failure.1 exEnv c1Args ⟨true⟩ exFS
    [["", "w", "tests", "test_main.py"]] (by rfl) (by decide) rfl

/-- Claim C1 counterexample: the specification's example run as literally
stated — no `--include` flag, so the clap default of no include patterns —
finds no candidate files at all and succeeds with exit code 0 and an empty
missing set, instead of failing with a missing set of one path. -/
theorem checkFilePair_example_default_include_cex :
    CheckFilePair.command exEnv c1DefaultArgs ⟨false⟩ exFS = (exFS, .ok)
    ∧ CheckFilePair.missingSet exEnv c1DefaultArgs exFS = some (.ok []) :=
  ⟨rfl, rfl⟩

/-- Claim C2: when scaffolding is requested and the missing set `m` is
non-empty, a dry run leaves the filesystem untouched while a real run creates
every missing file and its missing parent directories, and both runs fail
with the same message "Created N missing files" reporting the same count. -/
theorem checkFilePair_scaffolding_spec :
    ∀ (env : CheckFilePair.Env) (args : CheckFilePair.CommandArgs) (g : GlobalOpts)
      (fs : FS) (m : List FsPath),
      CheckFilePair.missingSet env args fs = some (.ok m) → m ≠ [] →
      args.createIfNotExists = true →
      (g.dryRun = true →
        CheckFilePair.command env args g fs
          = (fs, .err ("Created " ++ toString m.length ++ " missing files.")))
      ∧ (g.dryRun = false →
          CheckFilePair.command env args g fs
            = (m.foldl touch_file fs,
                .err ("Created " ++ toString m.length ++ " missing files."))
          ∧ ∀ p ∈ m, (m.foldl touch_file fs).existsPath p ∧
              ∀ d ∈ ancDirs p, d ∈ (m.foldl touch_file fs).dirs) := by
  intro env args g fs m h1 h2 h3
  have hne : m.isEmpty = false := by
    cases m with
    | nil => exact absurd rfl h2
    | cons a t => rfl
  constructor
  · intro hd
    simp [CheckFilePair.command, h1, hne, h3, hd]
  · intro hd
    constructor
    · simp [CheckFilePair.command, h1, hne, h3, hd]
    · exact foldl_touch_created m fs (missingSet_not_exists env args fs m h1)

/-- Witness for claim C2: the example run with `--create-if-not-exists`, once
as a dry run (filesystem unchanged) and once for real (the missing test file
is created by the scaffolding fold), both reporting "Created 1 missing
files.". -/
theorem checkFilePair_scaffolding_spec_witness :
    CheckFilePair.command exEnv c2Args ⟨true⟩ exFS
      = (exFS, .err "Created 1 missing files.")
    ∧ CheckFilePair.command exEnv c2Args ⟨false⟩ exFS
      = ([(["", "w", "tests", "test_main.py"] : FsPath)].foldl touch_file exFS,
          .err "Created 1 missing files.") :=
  ⟨(checkFilePair_scaffolding_spec exEnv c2Args ⟨true⟩ exFS
      [["", "w", "tests", "test_main.py"]] (by rfl) (by decide) rfl).1 rfl,
   ((checkFilePair_scaffolding_spec exEnv c2Args ⟨false⟩ exFS
      [["", "w", "tests", "test_main.py"]] (by rfl) (by decide) rfl).2 rfl).1⟩

/-- Claim C4 (the code as it stands): with `--filename-regex
^test_(?P<filename>.*)$` configured and the candidate filename `main.py` not
matching it, the command panics out of `Regex::captures(..).unwrap()` instead
of failing with a `FilenameNotMatched` error. -/
theorem checkFilePair_regex_mismatch_panics :
    CheckFilePair.command exEnv c4Args ⟨false⟩ exFS
      = (exFS, .panicked "called Option::unwrap() on a None value") := by
  rfl

/-- Claim C5 (amended): `check-file-pair` fails fast exactly when `from` or
`to` cannot be made absolute, which for `std::path::absolute` means an empty
path string; the absence of the `from` root is not detected — globbing under
a nonexistent directory yields no candidates, so such a run succeeds with
exit code 0 (and the `to` root need not exist either). -/
theorem checkFilePair_fail_fast_empty_path :
    (∀ (env : CheckFilePair.Env) (args : CheckFilePair.CommandArgs) (g : GlobalOpts) (fs : FS),
      args.fromDir = "" →
      CheckFilePair.command env args g fs = (fs, .err "cannot make an empty path absolute"))
    ∧ (∀ (env : CheckFilePair.Env) (args : CheckFilePair.CommandArgs) (g : GlobalOpts) (fs : FS),
      args.toDir = "" →
      CheckFilePair.command env args g fs = (fs, .err "cannot make an empty path absolute"))
    ∧ CheckFilePair.command c5Env c5Args ⟨false⟩ c5FS = (c5FS, .ok) := by
  refine ⟨?_, ?_, by rfl⟩
  · intro env args g fs h
    simp [CheckFilePair.command, CheckFilePair.missingSet, absolutize, h]
  · intro env args g fs h
    cases habs : absolutize env.cwd args.fromDir with
    | none => simp [CheckFilePair.command, CheckFilePair.missingSet, habs]
    | some fromP =>
      simp [CheckFilePair.command, CheckFilePair.missingSet, absolutize, habs, h]

/-- Witness for claim C5: the fail-fast branch at a concrete run with an
empty `--from` string. -/
theorem checkFilePair_fail_fast_empty_path_witness :
    CheckFilePair.command c5Env c5EmptyArgs ⟨false⟩ c5FS
      = (c5FS, .err "cannot make an empty path absolute") :=
  checkFilePair_fail_fast_empty_path.1 c5Env c5EmptyArgs ⟨false⟩ c5FS rfl

/-- Claim C5 counterexample: a run whose `from` directory does not exist (and
whose include pattern is a perfectly ordinary `**/*.py`) succeeds with exit
code 0, refuting "a run with a nonexistent from directory does not succeed
with exit code 0". -/
theorem checkFilePair_nonexistent_from_ok_cex :
    CheckFilePair.command c5Env c5Args ⟨false⟩ c5FS = (c5FS, .ok) := by
  rfl

/-- Looking a name up after inserting the captures: the last participating
named capture of that name wins, otherwise the underlying mapping answers. -/
theorem lookupVar_insertCaptures (vars : List (String × String))
    (gs : List (Option String × Option String)) (n : String) :
    lookupVar (CheckFilePair.insertCaptures vars gs) n
      = match CheckFilePair.lookupCaptures gs n with
        | some v => some v
        | none => lookupVar vars n := by
  induction gs generalizing vars with
  | nil => rfl
  | cons g rest ih =>
    obtain ⟨gn, gv⟩ := g
    match gn, gv with
    | some k, some v =>
      show lookupVar (CheckFilePair.insertCaptures (insertVar vars k v) rest) n = _
      rw [ih]
      cases hr : CheckFilePair.lookupCaptures rest n with
      | some w => simp [CheckFilePair.lookupCaptures, hr]
      | none =>
        by_cases hk : k = n
        · subst hk
          simp [CheckFilePair.lookupCaptures, hr, lookupVar_insertVar_self]
        · simp [CheckFilePair.lookupCaptures, hr, hk,
            lookupVar_insertVar_other vars k v n (fun e => hk e.symm)]
    | none, gv =>
      show lookupVar (CheckFilePair.insertCaptures vars rest) n = _
      rw [ih]
      rfl
    | some k, none =>
      show lookupVar (CheckFilePair.insertCaptures vars rest) n = _
      rw [ih]
      rfl

/-- Inserting captures preserves key uniqueness. -/
theorem keysNodup_insertCaptures (vars : List (String × String))
    (gs : List (Option String × Option String)) (h : keysNodup vars) :
    keysNodup (CheckFilePair.insertCaptures vars gs) := by
  induction gs generalizing vars with
  | nil => exact h
  | cons g rest ih =>
    obtain ⟨gn, gv⟩ := g
    match gn, gv with
    | some k, some v => exact ih (insertVar vars k v) (keysNodup_insertVar vars k v h)
    | none, gv => exact ih vars h
    | some k, none => exact ih vars h

/-- Entries that are unnamed or did not participate contribute nothing. -/
theorem insertCaptures_filter (vars : List (String × String))
    (gs : List (Option String × Option String)) :
    CheckFilePair.insertCaptures vars
        (gs.filter (fun g => g.1.isSome && g.2.isSome))
      = CheckFilePair.insertCaptures vars gs := by
  induction gs generalizing vars with
  | nil => rfl
  | cons g rest ih =>
    obtain ⟨gn, gv⟩ := g
    match gn, gv with
    | some k, some v =>
      rw [List.filter_cons]
      simp only [Option.isSome_some, Bool.and_true, if_true]
      show CheckFilePair.insertCaptures (insertVar vars k v) (rest.filter _)
        = CheckFilePair.insertCaptures (insertVar vars k v) rest
      exact ih (insertVar vars k v)
    | none, gv =>
      rw [List.filter_cons]
      simp only [Option.isSome_none, Bool.false_and, if_false]
      exact ih vars
    | some k, none =>
      rw [List.filter_cons]
      simp only [Option.isSome_some, Option.isSome_none, Bool.true_and, if_false]
      exact ih vars

/-- The base mapping `cwd`/`from`/`to` has unique keys. -/
theorem keysNodup_baseVarsOf (env : CheckFilePair.Env) (fromP toP : FsPath) :
    keysNodup (CheckFilePair.baseVarsOf env fromP toP) := by
  refine keysNodup_insertVar _ _ _ (keysNodup_insertVar _ _ _ (keysNodup_insertVar _ _ _ ?_))
  simp [keysNodup]

/-- Claim C8: in the per-file variable mapping, a name resolves to the last
participating named capture of that name when one exists, overriding the
built-in of the same name, and to the built-in value otherwise; unnamed and
non-participating groups add nothing; and the mapping's keys stay unique
(captures are applied after built-ins). -/
theorem capture_groups_override_spec :
    (∀ (base : List (String × String)) (s e r f : String)
        (gs : List (Option String × Option String)) (n : String),
      lookupVar (CheckFilePair.buildVars base s e r f gs) n
        = match CheckFilePair.lookupCaptures gs n with
          | some v => some v
          | none => lookupVar (CheckFilePair.builtinVars base s e r f) n)
    ∧ (∀ (base : List (String × String)) (s e r f : String)
        (gs : List (Option String × Option String)),
      CheckFilePair.buildVars base s e r f (gs.filter (fun g => g.1.isSome && g.2.isSome))
        = CheckFilePair.buildVars base s e r f gs)
    ∧ (∀ (base : List (String × String)) (s e r f : String)
        (gs : List (Option String × Option String)),
      keysNodup base → keysNodup (CheckFilePair.buildVars base s e r f gs))
    ∧ (∀ (env : CheckFilePair.Env) (fromP toP : FsPath),
      keysNodup (CheckFilePair.baseVarsOf env fromP toP)) := by
  refine ⟨?_, ?_, ?_, keysNodup_baseVarsOf⟩
  · intro base s e r f gs n
    exact lookupVar_insertCaptures (CheckFilePair.builtinVars base s e r f) gs n
  · intro base s e r f gs
    exact insertCaptures_filter (CheckFilePair.builtinVars base s e r f) gs
  · intro base s e r f gs h
    refine keysNodup_insertCaptures _ gs ?_
    exact keysNodup_insertVar _ _ _ (keysNodup_insertVar _ _ _
      (keysNodup_insertVar _ _ _ (keysNodup_insertVar _ _ _ h)))

/-- Witness for claim C8: a capture group named `filename` overrides the
built-in `filename` (which holds `test_main.py`) with the captured
`main.py`, an unnamed group adds nothing, and the keys of the resulting
mapping are unique. -/
theorem capture_groups_override_spec_witness :
    lookupVar (CheckFilePair.buildVars [] "test_main" "py" "." "test_main.py"
        [(some "filename", some "main.py"), (none, some "zzz")]) "filename"
      = some "main.py"
    ∧ keysNodup (CheckFilePair.buildVars [] "test_main" "py" "." "test_main.py"
        [(some "filename", some "main.py"), (none, some "zzz")]) :=
  ⟨capture_groups_override_spec.1 [] "test_main" "py" "." "test_main.py"
      [(some "filename", some "main.py"), (none, some "zzz")] "filename",
   capture_groups_override_spec.2.2.1 [] "test_main" "py" "." "test_main.py"
      [(some "filename", some "main.py"), (none, some "zzz")] (by simp [keysNodup])⟩

/-- The prefix test of `strip_prefix` succeeds on any extension of the
prefix. -/
theorem isPrefixOf_append_self (l r : List String) : l.isPrefixOf (l ++ r) = true := by
  induction l with
  | nil => cases r <;> rfl
  | cons a t ih => simp [List.isPrefixOf, ih]

/-- Claim C9: the `relative_from` variable is never the empty string; for a
file directly inside `from` it is the literal "."; otherwise it is the file's
parent directory rendered relative to `from`. -/
theorem relative_from_dot_spec :
    (∀ (fromP path : FsPath) (r : String),
      CheckFilePair.relativeFromOf fromP path = .ok r → r ≠ "")
    ∧ (∀ (fromP : FsPath) (name : String),
      CheckFilePair.relativeFromOf fromP (fromP ++ [name]) = .ok ".")
    ∧ (∀ (fromP rel : FsPath), 2 ≤ rel.length → joinPath rel.dropLast ≠ "" →
      CheckFilePair.relativeFromOf fromP (fromP ++ rel) = .ok (joinPath rel.dropLast)) := by
  refine ⟨?_, ?_, ?_⟩
  · intro fromP path r h
    unfold CheckFilePair.relativeFromOf at h
    by_cases hp : fromP.isPrefixOf path
    · rw [if_pos hp] at h
      cases hdrop : path.drop fromP.length with
      | nil => rw [hdrop] at h; cases h
      | cons x xs =>
        rw [hdrop] at h
        injection h with h
        subst h
        unfold CheckFilePair.dotIfEmpty
        by_cases hs : joinPath (x :: xs).dropLast = ""
        · rw [if_pos hs]; decide
        · rw [if_neg hs]; exact hs
    · rw [if_neg hp] at h; cases h
  · intro fromP name
    unfold CheckFilePair.relativeFromOf
    rw [if_pos (isPrefixOf_append_self fromP [name]), List.drop_left]
    rfl
  · intro fromP rel h2 hs
    rcases rel with _ | ⟨x, _ | ⟨y, xs⟩⟩
    · simp at h2
    · simp at h2
    · unfold CheckFilePair.relativeFromOf
      rw [if_pos (isPrefixOf_append_self fromP (x :: y :: xs)), List.drop_left]
      show Except.ok (CheckFilePair.dotIfEmpty (joinPath ((x :: y :: xs).dropLast))) = _
      rw [CheckFilePair.dotIfEmpty, if_neg hs]

/-- Witness for claim C9: `/w/src/main.py` under `/w/src` renders
`relative_from` as ".", `/w/src/utils/logger.py` renders it as "utils", and
"." is not the empty string. -/
theorem relative_from_dot_spec_witness :
    CheckFilePair.relativeFromOf ["", "w", "src"] (["", "w", "src"] ++ ["main.py"]) = .ok "."
    ∧ CheckFilePair.relativeFromOf ["", "w", "src"]
        (["", "w", "src"] ++ ["utils", "logger.py"])
        = .ok (joinPath (["utils", "logger.py"] : FsPath).dropLast)
    ∧ ("." : String) ≠ "" :=
  ⟨relative_from_dot_spec.2.1 ["", "w", "src"] "main.py",
   relative_from_dot_spec.2.2 ["", "w", "src"] ["utils", "logger.py"] (by decide) (by decide),
   relative_from_dot_spec.1 ["", "w", "src"] (["", "w", "src"] ++ ["main.py"]) "." (by rfl)⟩

/-- Claim C3: the `assert-diff` state machine.  Under a resolvable, existing
target and a computable directory hash: when the hash file does not exist the
hash is written there and the run succeeds; when it exists and stores the
computed hash the run succeeds, deleting the hash file unless
`--preserve-hash-file` is set; when it stores a different hash the run fails. -/
theorem assertDiff_state_machine (env : AssertDiff.Env) (args : AssertDiff.CommandArgs)
    (fs : AssertDiff.HFS) (target : FsPath) (hash : String)
    (ht : absolutize env.cwd args.target = some target)
    (hex : fs.existsPath target)
    (hh : AssertDiff.calculate_directory_hash env fs target args.includePats args.excludePats
      = some hash) :
    (¬ fs.existsPath (args.hashFile.getD (env.tempDir ++ ["assert-diff.hash"])) →
      AssertDiff.command env args fs
        = (fs.writeFile (args.hashFile.getD (env.tempDir ++ ["assert-diff.hash"])) hash, .ok))
    ∧ (fs.readFile (args.hashFile.getD (env.tempDir ++ ["assert-diff.hash"])) = some hash →
        (args.preserveHashFile = true → AssertDiff.command env args fs = (fs, .ok))
        ∧ (args.preserveHashFile = false →
            AssertDiff.command env args fs
              = (fs.removeFile (args.hashFile.getD (env.tempDir ++ ["assert-diff.hash"])), .ok)))
    ∧ (∀ h', fs.readFile (args.hashFile.getD (env.tempDir ++ ["assert-diff.hash"])) = some h' →
        h' ≠ hash →
        AssertDiff.command env args fs
          = (fs, .err ("Directory hash does not match the existing hash: "
              ++ hash ++ " != " ++ h'))) := by
  refine ⟨?_, ?_, ?_⟩
  · intro hnf
    simp [AssertDiff.command, ht, hh, hex, hnf]
  · intro hr
    have hef : fs.existsPath (args.hashFile.getD (env.tempDir ++ ["assert-diff.hash"])) :=
      Or.inl (by rw [hr]; rfl)
    constructor
    · intro hp
      simp [AssertDiff.command, ht, hh, hex, hef, hr, hp]
    · intro hp
      simp [AssertDiff.command, ht, hh, hex, hef, hr, hp]
  · intro h' hr hne
    have hef : fs.existsPath (args.hashFile.getD (env.tempDir ++ ["assert-diff.hash"])) :=
      Or.inl (by rw [hr]; rfl)
    have hne' : ¬ hash = h' := fun e => hne e.symm
    simp [AssertDiff.command, ht, hh, hex, hef, hr, hne']

/-- Claim C10: a hash mismatch fails without mutating the hash file — after
the failing run the hash file still exists with its previous content. -/
theorem assertDiff_mismatch_keeps_hash_file (env : AssertDiff.Env)
    (args : AssertDiff.CommandArgs) (fs : AssertDiff.HFS) (target : FsPath)
    (hash h' : String)
    (ht : absolutize env.cwd args.target = some target)
    (hex : fs.existsPath target)
    (hh : AssertDiff.calculate_directory_hash env fs target args.includePats args.excludePats
      = some hash)
    (hr : fs.readFile (args.hashFile.getD (env.tempDir ++ ["assert-diff.hash"])) = some h')
    (hne : h' ≠ hash) :
    (AssertDiff.command env args fs).1 = fs
    ∧ (AssertDiff.command env args fs).2
        = .err ("Directory hash does not match the existing hash: " ++ hash ++ " != " ++ h')
    ∧ (AssertDiff.command env args fs).1.readFile
        (args.hashFile.getD (env.tempDir ++ ["assert-diff.hash"])) = some h' := by
  have hef : fs.existsPath (args.hashFile.getD (env.tempDir ++ ["assert-diff.hash"])) :=
    Or.inl (by rw [hr]; rfl)
  have hne' : ¬ hash = h' := fun e => hne e.symm
  have hcmd : AssertDiff.command env args fs
      = (fs, .err ("Directory hash does not match the existing hash: "
          ++ hash ++ " != " ++ h')) := by
    simp [AssertDiff.command, ht, hh, hex, hef, hr, hne']
  rw [hcmd]
  exact ⟨rfl, rfl, hr⟩

/-- Witness for claim C3: a first run against a fresh hash-file location
writes the computed digest and succeeds. -/
theorem assertDiff_state_machine_witness :
    AssertDiff.command adEnv adArgs adFS
      = (adFS.writeFile ["", "tmp", "assert-diff.hash"] "h0", .ok) :=
  (assertDiff_state_machine adEnv adArgs adFS ["", "w", "target"] "h0"
    rfl (by decide) rfl).1 (by decide)

/-- Witness for claim C10: the mismatch run fails and the stale hash file is
still there with its previous content afterwards. -/
theorem assertDiff_mismatch_keeps_hash_file_witness :
    (AssertDiff.command adEnv adArgs adFSWithHash).1 = adFSWithHash
    ∧ (AssertDiff.command adEnv adArgs adFSWithHash).2
        = .err "Directory hash does not match the existing hash: h0 != stale"
    ∧ (AssertDiff.command adEnv adArgs adFSWithHash).1.readFile
        ["", "tmp", "assert-diff.hash"] = some "stale" :=
  assertDiff_mismatch_keeps_hash_file adEnv adArgs adFSWithHash ["", "w", "target"]
    "h0" "stale" rfl (by decide) rfl rfl (by decide)
